import Mathlib

/-!
Verification of the pool-monitoring and swap-execution engine of
`uniswap-monitor-bot` (`src/services/PoolMonitorService.ts`: classes
`PoolMonitorService` and `SwapService`).

The TypeScript code is shallowly embedded:
* JavaScript `number` values (balances after `parseFloat(formatEther _)`,
  thresholds, percentages) are modelled as `ℚ`;
* JavaScript `BigInt` values (wei amounts, reserves) are modelled as `ℕ`
  (BigInt arithmetic is exact; the quantities involved are non-negative
  on-chain token amounts), with `/` the truncating (floor) division and a
  BigInt division by zero raising an error, as in JavaScript;
* all chain I/O (RPC reads, transaction submission, confirmation) is an
  environment of oracles (`SwapEnv`, `MonitorEnv`); a fallible call is an
  `Except String` value; submitted transactions and emitted success reports
  are collected in output lists;
* the unbounded `while` loop of `mintTokens` is given explicit fuel; `none`
  means the loop is still running (the code has no bound or timeout).
-/

namespace UniswapMonitorBot

/-- The three configured pools, in the fixed `processOrder` of
`PoolMonitorService`. -/
inductive PoolType
  | usdc_weth
  | usdt_weth
  | dai_weth
deriving DecidableEq, BEq

/-- The field `private readonly processOrder: PoolType[] = ['usdc_weth', 'usdt_weth', 'dai_weth']`. -/
def processOrder : List PoolType :=
  [PoolType.usdc_weth, PoolType.usdt_weth, PoolType.dai_weth]

/-- Per-pool configuration (`config.pools[poolType]`), the fields the engine
reads. -/
structure PoolCfg where
  threshold : ℚ
  withdrawal_percentage : ℚ
  batch_mint_amount : ℕ
  token_decimals : ℕ

/-- Global swap configuration (`config.swap`): the fee floors (already parsed
from gwei to wei, as `ethers.parseUnits` does) and the swap gas limit. -/
structure SwapCfg where
  max_fee : ℕ
  priority_fee : ℕ
  gas_limit : ℕ

/-- Result of `provider.getFeeData()`: the network-suggested fees. -/
structure FeeData where
  maxFeePerGas : ℕ
  maxPriorityFeePerGas : ℕ
deriving DecidableEq

/-- The four kinds of transaction `SwapService` submits. -/
inductive TxKind
  | mint
  | approve
  | swap
  | unwrap
deriving DecidableEq

/-- A submitted transaction request as assembled by
`SwapService.executeTransaction` (nonce, resolved fees, gas limit). -/
structure TxPlan where
  kind : TxKind
  nonce : ℕ
  gasLimit : ℕ
  maxFeePerGas : ℕ
  maxPriorityFeePerGas : ℕ
deriving DecidableEq

/-- The success report emitted by `logger.logSwapSuccess` in `unwrapWETH`:
native-asset balance before and after the unwrap, and profit = after − before
(a `BigInt` difference, possibly negative). -/
structure SwapOutcome where
  ethBalanceBefore : ℕ
  ethBalanceAfter : ℕ
  profit : ℤ
deriving DecidableEq

/-- Mutable state of one `SwapService`: only the `isProcessing` in-flight
flag. -/
structure ExecState where
  isProcessing : Bool
deriving DecidableEq

/-- Chain-environment oracles consumed by one `executeSwap` invocation.
Per-transaction oracles (`nonce`, `feeData`, `sendTx`) are indexed by the
number of transactions submitted so far; `mintedBalance` is indexed by the
number of completed mint calls. -/
structure SwapEnv where
  /-- Result of `wethContract.balanceOf(pool)` via `getPoolBalance`, after
  `formatEther`/`parseFloat`. -/
  poolWethBalance : Except String ℚ
  /-- Result of `tokenContract.balanceOf(pool)` in `calculateRequiredTokenAmount`. -/
  poolTokenReserve : Except String ℕ
  /-- Result of `wethContract.balanceOf(pool)` in `calculateRequiredTokenAmount`. -/
  poolWethReserve : Except String ℕ
  /-- Result of `tokenContract.balanceOf(signer)` at entry to `mintTokens`. -/
  signerTokenBalance : Except String ℕ
  /-- The signer balance `tokenContract.balanceOf(signer)` re-read after the i-th mint call. -/
  mintedBalance : ℕ → Except String ℕ
  /-- Result of `tokenContract.allowance(signer, router)`. -/
  allowance : Except String ℕ
  /-- Result of `poolContract.fee()`. -/
  poolFee : Except String ℕ
  /-- Result of `wethContract.balanceOf(signer)` after the swap confirms. -/
  signerWethBalance : Except String ℕ
  /-- Result of `provider.getBalance(signer)` before the unwrap. -/
  nativeBalanceBefore : Except String ℕ
  /-- Result of `provider.getBalance(signer)` after the unwrap confirms. -/
  nativeBalanceAfter : Except String ℕ
  /-- Result of `provider.getFeeData()` at submission of the t-th transaction. -/
  feeData : ℕ → Except String FeeData
  /-- Result of `provider.getTransactionCount(signer)` (`getNonce`) before the t-th
  transaction. -/
  nonce : ℕ → Except String ℕ
  /-- outcome of `signer.sendTransaction` + `result.wait()` for the t-th
  transaction. -/
  sendTx : ℕ → Except String Unit

/-- The method `SwapService.executeTransaction`: resolve the effective fees as
`floor > suggested ? floor : suggested` for both the max fee and the priority
fee, and assemble the request. -/
def executeTransaction (sc : SwapCfg) (net : FeeData) (kind : TxKind)
    (gasLimit nonce : ℕ) : TxPlan :=
  { kind := kind
    nonce := nonce
    gasLimit := gasLimit
    maxFeePerGas :=
      if sc.max_fee > net.maxFeePerGas then sc.max_fee else net.maxFeePerGas
    maxPriorityFeePerGas :=
      if sc.priority_fee > net.maxPriorityFeePerGas then sc.priority_fee
      else net.maxPriorityFeePerGas }

/-- One transaction submission as every call site performs it: fetch a fresh
nonce (`getNonce`), then inside `executeTransaction` fetch the network fee
data and send; any failing step aborts with its error. -/
def submitTx (sc : SwapCfg) (env : SwapEnv) (kind : TxKind) (gasLimit t : ℕ) :
    Except String TxPlan :=
  match env.nonce t with
  | Except.error e => Except.error e
  | Except.ok n =>
    match env.feeData t with
    | Except.error e => Except.error e
    | Except.ok fd =>
      match env.sendTx t with
      | Except.error e => Except.error e
      | Except.ok _ => Except.ok (executeTransaction sc fd kind gasLimit n)

/-- Step 1 of the protocol (`executeSwap` line):
`withdrawalAmount = (balanceNum * poolConfig.withdrawal_percentage) / 100`. -/
def withdrawalAmount (balance pct : ℚ) : ℚ :=
  balance * pct / 100

/-- The conversion `ethers.parseEther(x.toString())`: an ether quantity converted to wei. -/
def weiOfEther (q : ℚ) : ℕ :=
  ⌊q * 10 ^ 18⌋₊

/-- The division of `calculateRequiredTokenAmount`:
`requiredAmount = (tokenBalance * wethAmount) / wethBalance` in `BigInt`
(truncating) arithmetic. -/
def calculateRequiredTokenAmount (tokenBalance wethBalance wethAmount : ℕ) : ℕ :=
  tokenBalance * wethAmount / wethBalance

/-- The 10% buffer of `executeSwap`:
`requiredTokensWithBuffer = (requiredTokens * 110n) / 100n`. -/
def requiredWithBuffer (required : ℕ) : ℕ :=
  required * 110 / 100

/-- Result of the `mintTokens` loop: outcome, transactions submitted so far
(count and list). -/
structure MintRun where
  result : Except String Unit
  txCount : ℕ
  txs : List TxPlan

/-- The `while (currentBalance < targetAmount)` loop of `mintTokens`:
submit one `batchMint` call of the configured batch size, wait, re-read the
signer balance, repeat. `fuel` bounds the modelled unrolling only — `none`
means the unbounded loop is still running. `bal` is the last balance read,
`t` the transactions submitted so far, `i` the completed mint calls. -/
def mintLoop (sc : SwapCfg) (env : SwapEnv) (target : ℕ) :
    ℕ → ℕ → ℕ → ℕ → List TxPlan → Option MintRun
  | 0, _, _, _, _ => none
  | fuel + 1, bal, t, i, acc =>
    if bal < target then
      match submitTx sc env TxKind.mint 10000000 t with
      | Except.error e => some ⟨Except.error e, t, acc⟩
      | Except.ok tx =>
        match env.mintedBalance i with
        | Except.error e => some ⟨Except.error e, t + 1, acc ++ [tx]⟩
        | Except.ok b2 =>
          mintLoop sc env target fuel b2 (t + 1) (i + 1) (acc ++ [tx])
    else some ⟨Except.ok (), t, acc⟩

/-- The method `SwapService.checkAndApproveToken`: read the router allowance; when it is
below `amount`, submit one approval for exactly `amount` and wait. Returns the
updated transaction count and the submitted transactions. -/
def checkAndApproveToken (sc : SwapCfg) (env : SwapEnv) (amount t : ℕ) :
    Except String (ℕ × List TxPlan) :=
  match env.allowance with
  | Except.error e => Except.error e
  | Except.ok al =>
    if al < amount then
      match submitTx sc env TxKind.approve 100000 t with
      | Except.error e => Except.error e
      | Except.ok tx => Except.ok (t + 1, [tx])
    else Except.ok (t, [])

/-- The method `SwapService.unwrapWETH`: read the native balance, submit the WETH
`withdraw` call, wait, re-read the native balance, and emit the single
success report with profit = after − before. -/
def unwrapWETH (sc : SwapCfg) (env : SwapEnv) (t : ℕ) :
    Except String (ℕ × List TxPlan × SwapOutcome) :=
  match env.nativeBalanceBefore with
  | Except.error e => Except.error e
  | Except.ok before =>
    match submitTx sc env TxKind.unwrap 100000 t with
    | Except.error e => Except.error e
    | Except.ok tx =>
      match env.nativeBalanceAfter with
      | Except.error e => Except.error e
      | Except.ok a =>
        Except.ok (t + 1, [tx], ⟨before, a, (a : ℤ) - (before : ℤ)⟩)

/-- Result of the protocol body (the `try` block of `executeSwap`): outcome,
all transactions submitted, all success reports emitted. -/
structure ProtoRun where
  result : Except String Unit
  txs : List TxPlan
  reports : List SwapOutcome

/-- The body of the `try` block of `SwapService.executeSwap`: read the pool
balance; return if it is at or below the threshold; otherwise size the
withdrawal, price it from the reserves (a `BigInt` division, which throws on a
zero WETH reserve), buffer it by 10%, ensure inventory through `mintTokens`,
approve if needed, submit the swap, and unwrap any acquired WETH. Every failing
step aborts the remaining steps with its error. -/
def swapProtocol (pc : PoolCfg) (sc : SwapCfg) (env : SwapEnv) (fuel : ℕ) :
    Option ProtoRun :=
  match env.poolWethBalance with
  | Except.error e => some ⟨Except.error e, [], []⟩
  | Except.ok balanceNum =>
    if balanceNum ≤ pc.threshold then some ⟨Except.ok (), [], []⟩
    else
      let wWei := weiOfEther (withdrawalAmount balanceNum pc.withdrawal_percentage)
      match env.poolTokenReserve with
      | Except.error e => some ⟨Except.error e, [], []⟩
      | Except.ok tokenReserve =>
        match env.poolWethReserve with
        | Except.error e => some ⟨Except.error e, [], []⟩
        | Except.ok wethReserve =>
          if wethReserve = 0 then
            some ⟨Except.error "Division by zero", [], []⟩
          else
            let buffered :=
              requiredWithBuffer
                (calculateRequiredTokenAmount tokenReserve wethReserve wWei)
            match env.signerTokenBalance with
            | Except.error e => some ⟨Except.error e, [], []⟩
            | Except.ok s0 =>
              match mintLoop sc env buffered fuel s0 0 0 [] with
              | none => none
              | some ⟨Except.error e, _, txs⟩ => some ⟨Except.error e, txs, []⟩
              | some ⟨Except.ok _, t, txs⟩ =>
                match checkAndApproveToken sc env buffered t with
                | Except.error e => some ⟨Except.error e, txs, []⟩
                | Except.ok (t2, txs2) =>
                  match env.poolFee with
                  | Except.error e => some ⟨Except.error e, txs ++ txs2, []⟩
                  | Except.ok _ =>
                    match submitTx sc env TxKind.swap sc.gas_limit t2 with
                    | Except.error e => some ⟨Except.error e, txs ++ txs2, []⟩
                    | Except.ok swapTx =>
                      match env.signerWethBalance with
                      | Except.error e =>
                        some ⟨Except.error e, txs ++ txs2 ++ [swapTx], []⟩
                      | Except.ok w =>
                        if w > 0 then
                          match unwrapWETH sc env (t2 + 1) with
                          | Except.error e =>
                            some ⟨Except.error e, txs ++ txs2 ++ [swapTx], []⟩
                          | Except.ok (_, utxs, outcome) =>
                            some ⟨Except.ok (),
                              txs ++ txs2 ++ [swapTx] ++ utxs, [outcome]⟩
                        else
                          some ⟨Except.ok (), txs ++ txs2 ++ [swapTx], []⟩

/-- Full result of one `executeSwap` invocation. -/
structure SwapRun where
  result : Except String Unit
  state : ExecState
  txs : List TxPlan
  reports : List SwapOutcome

/-- The method `SwapService.executeSwap`: if `isProcessing` is already set the call
returns immediately (no transactions, flag untouched). Otherwise it sets the
flag and runs the protocol body under `try`/`catch`/`finally`: the `catch`
logs and rethrows the error unchanged, and the `finally` clears the flag on
every exit path. -/
def executeSwap (pc : PoolCfg) (sc : SwapCfg) (env : SwapEnv) (fuel : ℕ)
    (st : ExecState) : Option SwapRun :=
  if st.isProcessing then some ⟨Except.ok (), st, [], []⟩
  else
    match swapProtocol pc sc env fuel with
    | none => none
    | some ⟨Except.ok _, txs, reports⟩ =>
      some ⟨Except.ok (), ⟨false⟩, txs, reports⟩
    | some ⟨Except.error e, txs, reports⟩ =>
      some ⟨Except.error e, ⟨false⟩, txs, reports⟩

/-- Mutable state of the `PoolMonitorService`: the round-robin cursor and the
tick-in-flight flag. -/
structure MonitorState where
  currentPoolIndex : ℕ
  isProcessing : Bool
deriving DecidableEq

/-- Environment of one monitor tick: the outcome of
`swapService.getPoolBalance()` (after `parseFloat`) and, when a swap is
attempted, the outcome of `swapService.executeSwap()`. -/
structure MonitorEnv where
  balance : Except String ℚ
  swapResult : Except String Unit

/-- The method `PoolMonitorService.initializeSwapServices`: one `SwapService` per pool
type of `processOrder`, keyed by pool type (the stored value is the pool type
the service was constructed for). -/
def initializeSwapServices : List (PoolType × PoolType) :=
  processOrder.map (fun p => (p, p))

/-- The lookup `Map.get`: association-list lookup. -/
def mapGet (m : List (PoolType × PoolType)) (k : PoolType) : Option PoolType :=
  (m.find? (fun kv => kv.1 == k)).map Prod.snd

/-- The method `PoolMonitorService.processNextPool`: drop the tick if one is in flight;
otherwise select the pool at the cursor, look up its service (throwing
`SwapService not found` when absent), read the balance, compare against the
threshold and possibly swap; advance the cursor only when no error was thrown
(the increment sits inside the `try` block after the balance read and swap);
any error is caught and logged; the `finally` clears the tick flag. -/
def processNextPool (pools : PoolType → PoolCfg)
    (services : List (PoolType × PoolType)) (env : MonitorEnv)
    (st : MonitorState) : MonitorState :=
  if st.isProcessing then st
  else
    match processOrder[st.currentPoolIndex]? with
    | none => ⟨st.currentPoolIndex, false⟩
    | some currentPool =>
      match mapGet services currentPool with
      | none => ⟨st.currentPoolIndex, false⟩
      | some _ =>
        match env.balance with
        | Except.error _ => ⟨st.currentPoolIndex, false⟩
        | Except.ok b =>
          if b > (pools currentPool).threshold then
            match env.swapResult with
            | Except.error _ => ⟨st.currentPoolIndex, false⟩
            | Except.ok _ =>
              ⟨(st.currentPoolIndex + 1) % processOrder.length, false⟩
          else ⟨(st.currentPoolIndex + 1) % processOrder.length, false⟩

/-- Monitor states reachable from construction (`currentPoolIndex = 0`,
`isProcessing = false`) by any sequence of ticks under any environments. -/
inductive ReachableMonitor (pools : PoolType → PoolCfg) : MonitorState → Prop
  | init : ReachableMonitor pools ⟨0, false⟩
  | step (env : MonitorEnv) (st : MonitorState) :
      ReachableMonitor pools st →
      ReachableMonitor pools (processNextPool pools initializeSwapServices env st)

/-! ### Concrete fixtures used by witnesses and counterexamples -/

/-- A concrete pool configuration: threshold 5, withdrawal percentage 90,
batch mint amount 2, token decimals 6 (the §8 example scenario of the spec). -/
def poolCfgA : PoolCfg :=
  { threshold := 5, withdrawal_percentage := 90, batch_mint_amount := 2
    token_decimals := 6 }

/-- All pools configured as `poolCfgA`. -/
def poolsA : PoolType → PoolCfg := fun _ => poolCfgA

/-- A concrete swap configuration: fee floor 10, priority floor 2, gas limit
500000. -/
def swapCfgA : SwapCfg := { max_fee := 10, priority_fee := 2, gas_limit := 500000 }

/-- A swap environment in which every chain call succeeds, the pool balance is
10 (above the threshold 5 of `poolCfgA`), the base-token side of the pool is
empty (so the required amount is 0 and no mint or approval is needed), and the
signer holds no WETH after the swap. -/
def envAllOk : SwapEnv :=
  { poolWethBalance := Except.ok 10
    poolTokenReserve := Except.ok 0
    poolWethReserve := Except.ok 10
    signerTokenBalance := Except.ok 0
    mintedBalance := fun _ => Except.ok 0
    allowance := Except.ok 0
    poolFee := Except.ok 3000
    signerWethBalance := Except.ok 0
    nativeBalanceBefore := Except.ok 100
    nativeBalanceAfter := Except.ok 120
    feeData := fun _ => Except.ok ⟨7, 1⟩
    nonce := fun _ => Except.ok 5
    sendTx := fun _ => Except.ok () }

/-- Like `envAllOk` but the pool balance is 4, below the threshold 5. -/
def envLow : SwapEnv := { envAllOk with poolWethBalance := Except.ok 4 }

/-- Like `envAllOk` but the signer holds 15 WETH after the swap, so the unwrap
step runs. -/
def envUnwrap : SwapEnv := { envAllOk with signerWethBalance := Except.ok 15 }

/-- A monitor-tick environment whose balance read fails. -/
def envTickErr : MonitorEnv :=
  { balance := Except.error "RPC error", swapResult := Except.ok () }

/-- A monitor-tick environment whose calls all succeed (balance 4). -/
def envTickOk : MonitorEnv :=
  { balance := Except.ok 4, swapResult := Except.ok () }

/-- A monitor-tick environment whose balance 10 crosses the threshold and
whose swap attempt fails. -/
def envTickSwapErr : MonitorEnv :=
  { balance := Except.ok 10, swapResult := Except.error "swap reverted" }

/-! ### Claim theorems -/

/-- C2: for every pool balance `B ≤ threshold`, `executeSwap()` returns
without submitting any transaction: no mint, approve, swap or unwrap call and
no success report, and the only state touched is the transient in-flight flag
(false again on return). -/
theorem C2_no_tx_at_or_below_threshold (pc : PoolCfg) (sc : SwapCfg)
    (env : SwapEnv) (fuel : ℕ) (st : ExecState) (B : ℚ)
    (hst : st.isProcessing = false)
    (hB : env.poolWethBalance = Except.ok B)
    (hle : B ≤ pc.threshold) :
    executeSwap pc sc env fuel st = some ⟨Except.ok (), ⟨false⟩, [], []⟩ := by
  simp [executeSwap, swapProtocol, hst, hB, hle]

/-- Witness for C2 at `B = 4 ≤ 5`. -/
theorem C2_no_tx_at_or_below_threshold_witness :
    executeSwap poolCfgA swapCfgA envLow 1 ⟨false⟩ =
      some ⟨Except.ok (), ⟨false⟩, [], []⟩ :=
  C2_no_tx_at_or_below_threshold poolCfgA swapCfgA envLow 1 ⟨false⟩ 4 rfl rfl
    (by norm_num [poolCfgA])

/-- C3: invoking `executeSwap()` while a swap is already in flight for the
same pool is a no-op: it returns immediately with zero transactions and zero
reports, leaving the state untouched. -/
theorem C3_reentrancy_noop (pc : PoolCfg) (sc : SwapCfg) (env : SwapEnv)
    (fuel : ℕ) (st : ExecState) (hst : st.isProcessing = true) :
    executeSwap pc sc env fuel st = some ⟨Except.ok (), st, [], []⟩ := by
  simp [executeSwap, hst]

/-- Witness for C3 with the flag set. -/
theorem C3_reentrancy_noop_witness :
    executeSwap poolCfgA swapCfgA envAllOk 1 ⟨true⟩ =
      some ⟨Except.ok (), ⟨true⟩, [], []⟩ :=
  C3_reentrancy_noop poolCfgA swapCfgA envAllOk 1 ⟨true⟩ rfl

/-- C4: with base-token reserve `Rb`, quote reserve `Rq > 0` and
withdrawal `w`, the swap is sized as `required = ⌊Rb * w / Rq⌋` and
`requiredBuffered = ⌊required * 110 / 100⌋` in exact integer arithmetic, and
the §8 example instance `Rb = 1000000`, `Rq = 10`, `w = 9` yields
`900000` and `990000`. -/
theorem C4_reserve_proportional_sizing (Rb Rq w r : ℕ) (hq : 0 < Rq) :
    calculateRequiredTokenAmount Rb Rq w = ⌊((Rb : ℚ) * (w : ℚ)) / (Rq : ℚ)⌋₊ ∧
    requiredWithBuffer r = ⌊((r : ℚ) * 110) / 100⌋₊ ∧
    calculateRequiredTokenAmount 1000000 10 9 = 900000 ∧
    requiredWithBuffer 900000 = 990000 := by
  refine ⟨?_, ?_, by norm_num [calculateRequiredTokenAmount],
    by norm_num [requiredWithBuffer]⟩
  · have h1 : ((Rb : ℚ) * (w : ℚ)) = ((Rb * w : ℕ) : ℚ) := by push_cast; ring
    rw [calculateRequiredTokenAmount, h1, Nat.floor_div_eq_div]
  · have h1 : ((r : ℚ) * 110) = ((r * 110 : ℕ) : ℚ) := by push_cast; ring
    have h2 : (100 : ℚ) = ((100 : ℕ) : ℚ) := by norm_num
    rw [requiredWithBuffer, h1, h2, Nat.floor_div_eq_div]

/-- Witness for C4 at the §8 example reserves. -/
theorem C4_reserve_proportional_sizing_witness :
    calculateRequiredTokenAmount 1000000 10 9 =
        ⌊((1000000 : ℕ) * ((9 : ℕ) : ℚ) / ((10 : ℕ) : ℚ))⌋₊ ∧
    requiredWithBuffer 900000 = ⌊(((900000 : ℕ) : ℚ) * 110) / 100⌋₊ ∧
    calculateRequiredTokenAmount 1000000 10 9 = 900000 ∧
    requiredWithBuffer 900000 = 990000 :=
  C4_reserve_proportional_sizing 1000000 10 9 900000 (by norm_num)

/-- C8: for every balance `B > threshold` and withdrawal percentage `pct`,
the sized withdrawal equals `B * pct / 100` exactly and scales linearly in
both `B` and `pct`. -/
theorem C8_withdrawal_exact_and_linear (B pct thr k : ℚ) (hB : B > thr) :
    withdrawalAmount B pct = B * pct / 100 ∧
    withdrawalAmount (k * B) pct = k * withdrawalAmount B pct ∧
    withdrawalAmount B (k * pct) = k * withdrawalAmount B pct := by
  unfold withdrawalAmount
  exact ⟨rfl, by ring, by ring⟩

/-- Witness for C8 at the §8 example (`B = 10 > 5`, `pct = 90`, scale 2). -/
theorem C8_withdrawal_exact_and_linear_witness :
    withdrawalAmount 10 90 = 10 * 90 / 100 ∧
    withdrawalAmount (2 * 10) 90 = 2 * withdrawalAmount 10 90 ∧
    withdrawalAmount 10 (2 * 90) = 2 * withdrawalAmount 10 90 :=
  C8_withdrawal_exact_and_linear 10 90 5 2 (by norm_num)

/-- The service map built by the constructor answers every pool type. -/
theorem mapGet_total (p : PoolType) :
    mapGet initializeSwapServices p = some p := by
  cases p <;> rfl

/-- Every cursor value below the pool count selects a pool whose service
lookup succeeds. -/
theorem lookup_at_cursor (c : ℕ) (hc : c < processOrder.length) :
    ∃ p, processOrder[c]? = some p ∧ mapGet initializeSwapServices p = some p := by
  have h3 : processOrder.length = 3 := rfl
  rw [h3] at hc
  interval_cases c <;> exact ⟨_, rfl, by rw [mapGet_total]⟩

/-- An exception-free tick advances the cursor exactly once modulo the pool
count and clears the tick flag. -/
theorem tick_advances (pools : PoolType → PoolCfg) (env : MonitorEnv)
    (st : MonitorState) (p : PoolType) (b : ℚ)
    (hst : st.isProcessing = false)
    (hp : processOrder[st.currentPoolIndex]? = some p)
    (hb : env.balance = Except.ok b)
    (hsw : b > (pools p).threshold → env.swapResult = Except.ok ()) :
    processNextPool pools initializeSwapServices env st =
      ⟨(st.currentPoolIndex + 1) % processOrder.length, false⟩ := by
  unfold processNextPool
  simp only [hst, Bool.false_eq_true, if_false, hp, mapGet_total, hb]
  by_cases hbt : b > (pools p).threshold
  · rw [if_pos hbt, hsw hbt]
  · rw [if_neg hbt]

/-- A tick whose balance read throws leaves the cursor unchanged (the
increment sits after the read inside the `try` block) and clears the flag. -/
theorem tick_error_keeps_cursor (pools : PoolType → PoolCfg) (env : MonitorEnv)
    (st : MonitorState) (e : String)
    (hst : st.isProcessing = false)
    (hb : env.balance = Except.error e) :
    processNextPool pools initializeSwapServices env st =
      ⟨st.currentPoolIndex, false⟩ := by
  unfold processNextPool
  simp only [hst, Bool.false_eq_true, if_false]
  cases hp : processOrder[st.currentPoolIndex]? with
  | none => rfl
  | some p => simp only [mapGet_total, hb]

/-- A tick whose swap attempt throws also leaves the cursor unchanged. -/
theorem tick_swap_error_keeps_cursor (pools : PoolType → PoolCfg)
    (env : MonitorEnv) (st : MonitorState) (p : PoolType) (b : ℚ) (e : String)
    (hst : st.isProcessing = false)
    (hp : processOrder[st.currentPoolIndex]? = some p)
    (hb : env.balance = Except.ok b)
    (hbt : b > (pools p).threshold)
    (hsw : env.swapResult = Except.error e) :
    processNextPool pools initializeSwapServices env st =
      ⟨st.currentPoolIndex, false⟩ := by
  unfold processNextPool
  simp only [hst, Bool.false_eq_true, if_false, hp, mapGet_total, hb]
  rw [if_pos hbt, hsw]

/-- C1 counterexample: a tick whose balance read fails does *not*
advance the cursor: from cursor 0 the tick returns cursor 0, while the claim
requires `(0 + 1) % 3 = 1`. The increment of `processNextPool` sits inside the
`try` block after the balance read and swap, so the `catch` path skips it. -/
theorem C1_cursor_stuck_on_error_counterexample :
    processNextPool poolsA initializeSwapServices envTickErr ⟨0, false⟩ =
      ⟨0, false⟩ ∧ (0 + 1) % processOrder.length = 1 ∧ (0 : ℕ) ≠ 1 := by
  refine ⟨?_, rfl, by norm_num⟩
  exact tick_error_keeps_cursor poolsA envTickErr ⟨0, false⟩ "RPC error" rfl rfl

/-- C1 amended: the cursor advances exactly once modulo the pool count
on every tick that completes without an exception (balance read succeeds and,
when a swap is attempted, it succeeds); on a tick that throws — whether in the
balance read or in the swap attempt — the cursor is unchanged; consequently,
with the 3 configured pools, 3 consecutive exception-free ticks return the
cursor to its starting position. -/
theorem C1_cursor_advance_amended (pools : PoolType → PoolCfg)
    (env env2 env3 e1 e2 e3 : MonitorEnv) (st : MonitorState) (p : PoolType)
    (b b1 b2 b3 bsw : ℚ) (err errsw : String)
    (hst : st.isProcessing = false)
    (hp : processOrder[st.currentPoolIndex]? = some p)
    (hb : env.balance = Except.ok b)
    (hsw : b > (pools p).threshold → env.swapResult = Except.ok ())
    (hb2 : env2.balance = Except.error err)
    (hb3 : env3.balance = Except.ok bsw)
    (hbt3 : bsw > (pools p).threshold)
    (hsw3 : env3.swapResult = Except.error errsw)
    (h1 : e1.balance = Except.ok b1) (h1s : e1.swapResult = Except.ok ())
    (h2 : e2.balance = Except.ok b2) (h2s : e2.swapResult = Except.ok ())
    (h3 : e3.balance = Except.ok b3) (h3s : e3.swapResult = Except.ok ()) :
    processNextPool pools initializeSwapServices env st =
      ⟨(st.currentPoolIndex + 1) % processOrder.length, false⟩ ∧
    processNextPool pools initializeSwapServices env2 st =
      ⟨st.currentPoolIndex, false⟩ ∧
    processNextPool pools initializeSwapServices env3 st =
      ⟨st.currentPoolIndex, false⟩ ∧
    processNextPool pools initializeSwapServices e3
      (processNextPool pools initializeSwapServices e2
        (processNextPool pools initializeSwapServices e1 st)) =
      ⟨st.currentPoolIndex, false⟩ := by
  have hlen : processOrder.length = 3 := rfl
  have hclt : st.currentPoolIndex < 3 := by
    by_contra hge
    rw [List.getElem?_eq_none (by rw [hlen]; omega)] at hp
    exact Option.noConfusion hp
  refine ⟨tick_advances pools env st p b hst hp hb hsw,
    tick_error_keeps_cursor pools env2 st err hst hb2,
    tick_swap_error_keeps_cursor pools env3 st p bsw errsw hst hp hb3 hbt3 hsw3,
    ?_⟩
  obtain ⟨p1, hp1, -⟩ := lookup_at_cursor st.currentPoolIndex (by omega)
  have s1 := tick_advances pools e1 st p1 b1 hst hp1 h1 (fun _ => h1s)
  rw [s1]
  obtain ⟨p2, hp2, -⟩ :=
    lookup_at_cursor ((st.currentPoolIndex + 1) % processOrder.length)
      (Nat.mod_lt _ (by rw [hlen]; omega))
  have s2 := tick_advances pools e2
    ⟨(st.currentPoolIndex + 1) % processOrder.length, false⟩ p2 b2 rfl hp2 h2
    (fun _ => h2s)
  rw [s2]
  obtain ⟨p3, hp3, -⟩ :=
    lookup_at_cursor
      (((st.currentPoolIndex + 1) % processOrder.length + 1) % processOrder.length)
      (Nat.mod_lt _ (by rw [hlen]; omega))
  have s3 := tick_advances pools e3
    ⟨((st.currentPoolIndex + 1) % processOrder.length + 1) % processOrder.length,
      false⟩ p3 b3 rfl hp3 h3 (fun _ => h3s)
  rw [s3, hlen]
  simp only [MonitorState.mk.injEq, and_true]
  omega

/-- Witness for the amended C1 at cursor 0 with concrete environments. -/
theorem C1_cursor_advance_amended_witness :
    processNextPool poolsA initializeSwapServices envTickOk ⟨0, false⟩ =
      ⟨(0 + 1) % processOrder.length, false⟩ ∧
    processNextPool poolsA initializeSwapServices envTickErr ⟨0, false⟩ =
      ⟨0, false⟩ ∧
    processNextPool poolsA initializeSwapServices envTickSwapErr ⟨0, false⟩ =
      ⟨0, false⟩ ∧
    processNextPool poolsA initializeSwapServices envTickOk
      (processNextPool poolsA initializeSwapServices envTickOk
        (processNextPool poolsA initializeSwapServices envTickOk ⟨0, false⟩)) =
      ⟨0, false⟩ :=
  C1_cursor_advance_amended poolsA envTickOk envTickErr envTickSwapErr
    envTickOk envTickOk envTickOk ⟨0, false⟩ PoolType.usdc_weth 4 4 4 4 10
    "RPC error" "swap reverted" rfl rfl rfl
    (fun h => absurd h (by norm_num [poolsA, poolCfgA])) rfl rfl
    (by norm_num [poolsA, poolCfgA]) rfl rfl rfl rfl rfl rfl rfl

/-- The tick function keeps the cursor below the pool count. -/
theorem tick_cursor_lt (pools : PoolType → PoolCfg)
    (services : List (PoolType × PoolType)) (env : MonitorEnv)
    (st : MonitorState) (h : st.currentPoolIndex < processOrder.length) :
    (processNextPool pools services env st).currentPoolIndex <
      processOrder.length := by
  have hlen : processOrder.length = 3 := rfl
  unfold processNextPool
  split
  · exact h
  split
  · exact h
  split
  · exact h
  split
  · exact h
  split
  · split
    · exact h
    · exact Nat.mod_lt _ (by rw [hlen]; omega)
  · exact Nat.mod_lt _ (by rw [hlen]; omega)

/-- C10: the constructor registers one `SwapService` for every pool type
of `processOrder`, and the cursor of every reachable monitor state stays below
the pool count, so the executor lookup of a tick always succeeds and the
`SwapService not found` branch is unreachable. -/
theorem C10_service_lookup_total (pools : PoolType → PoolCfg)
    (st : MonitorState) (h : ReachableMonitor pools st) :
    ∃ p, processOrder[st.currentPoolIndex]? = some p ∧
      mapGet initializeSwapServices p = some p := by
  have hlt : st.currentPoolIndex < processOrder.length := by
    induction h with
    | init => norm_num [processOrder]
    | step env st' _ ih => exact tick_cursor_lt _ _ _ _ ih
  exact lookup_at_cursor _ hlt

/-- Witness for C10 at the initial monitor state. -/
theorem C10_service_lookup_total_witness :
    ∃ p, processOrder[(⟨0, false⟩ : MonitorState).currentPoolIndex]? = some p ∧
      mapGet initializeSwapServices p = some p :=
  C10_service_lookup_total poolsA ⟨0, false⟩ (ReachableMonitor.init)

/-- Ceiling-division step: one batch of size `m` reduces the remaining
deficit's ceiling count by exactly one. -/
theorem ceil_div_step (target bal m : ℕ) (hm : 0 < m) (hlt : bal < target) :
    (target - bal + m - 1) / m = (target - (bal + m) + m - 1) / m + 1 := by
  rcases le_or_lt (bal + m) target with h | h
  · have e1 : target - bal + m - 1 = (target - (bal + m) + m - 1) + m := by omega
    rw [e1, Nat.add_div_right _ hm]
  · have e1 : target - (bal + m) = 0 := by omega
    have e2 : target - bal + m - 1 = (target - bal - 1) + m := by omega
    rw [e1, e2, Nat.add_div_right _ hm]
    rw [Nat.div_eq_of_lt (by omega), Nat.div_eq_of_lt (by omega)]

/-- The bound `m · ⌈d / m⌉ ≥ d`: the batches minted by the ceiling count cover the
deficit. -/
theorem ceil_div_mul_ge (d m : ℕ) (hm : 0 < m) : d ≤ ((d + m - 1) / m) * m := by
  rcases Nat.eq_zero_or_pos d with rfl | hd
  · simp
  · have h1 : (d + m - 1) % m < m := Nat.mod_lt _ hm
    have h2 : (d + m - 1) / m * m + (d + m - 1) % m = d + m - 1 :=
      Nat.div_add_mod' (d + m - 1) m
    generalize (d + m - 1) / m * m = Q at h2 ⊢
    omega

/-- The mint loop under an ideal chain: every transaction submission succeeds
and the i-th mint raises the signer balance to exactly `S + (i+1)·m`. Starting
from balance `S + i·m`, the loop terminates with `⌈(target − bal)/m⌉` further
mint calls appended. -/
theorem mintLoop_ideal (sc : SwapCfg) (env : SwapEnv) (target S m : ℕ)
    (hm : 0 < m)
    (hnonce : ∀ t, ∃ n, env.nonce t = Except.ok n)
    (hfee : ∀ t, ∃ fd, env.feeData t = Except.ok fd)
    (hsend : ∀ t, env.sendTx t = Except.ok ())
    (hbal : ∀ j, env.mintedBalance j = Except.ok (S + (j + 1) * m)) :
    ∀ fuel bal t i acc,
      bal = S + i * m →
      (target - bal + m - 1) / m + 1 ≤ fuel →
      ∃ txs, mintLoop sc env target fuel bal t i acc =
          some ⟨Except.ok (), t + txs.length, acc ++ txs⟩ ∧
        txs.length = (target - bal + m - 1) / m := by
  intro fuel
  induction fuel with
  | zero => intro bal t i acc _ hfuel; exact absurd hfuel (Nat.not_succ_le_zero _)
  | succ fuel ih =>
    intro bal t i acc hbali hfuel
    by_cases hlt : bal < target
    · obtain ⟨n, hn⟩ := hnonce t
      obtain ⟨fd, hfd⟩ := hfee t
      have hsub : submitTx sc env TxKind.mint 10000000 t =
          Except.ok (executeTransaction sc fd TxKind.mint 10000000 n) := by
        unfold submitTx
        rw [hn, hfd, hsend t]
      have hnext : env.mintedBalance i = Except.ok (bal + m) := by
        rw [hbal i]
        congr 1
        rw [hbali]
        ring
      have hstep := ceil_div_step target bal m hm hlt
      obtain ⟨txs, htxs, hlen⟩ :=
        ih (bal + m) (t + 1) (i + 1)
          (acc ++ [executeTransaction sc fd TxKind.mint 10000000 n])
          (by rw [hbali]; ring) (by omega)
      refine ⟨executeTransaction sc fd TxKind.mint 10000000 n :: txs, ?_, ?_⟩
      · show mintLoop sc env target (fuel + 1) bal t i acc = _
        simp only [mintLoop, if_pos hlt, hsub, hnext]
        rw [htxs]
        congr 1
        rw [MintRun.mk.injEq]
        refine ⟨rfl, by simp only [List.length_cons]; omega,
          by simp [List.append_assoc]⟩
      · simp only [List.length_cons]
        omega
    · refine ⟨[], ?_, ?_⟩
      · show mintLoop sc env target (fuel + 1) bal t i acc = _
        simp only [mintLoop, if_neg hlt]
        simp
      · have : target - bal = 0 := by omega
        rw [this, List.length_nil, Nat.div_eq_of_lt (by omega)]

/-- C5: with starting signer balance `S < target` and batch size `m > 0`,
if every mint call succeeds and raises the balance by exactly `m`, the mint
loop submits exactly `⌈(target − S)/m⌉` mint calls; the balance
`S + j·m` after `j` mints is monotonically non-decreasing, and the loop
terminates only once the final balance `S + k·m` has reached the target. -/
theorem C5_mint_loop_exact_count (sc : SwapCfg) (env : SwapEnv)
    (target S m fuel : ℕ)
    (hS : S < target) (hm : 0 < m)
    (hnonce : ∀ t, ∃ n, env.nonce t = Except.ok n)
    (hfee : ∀ t, ∃ fd, env.feeData t = Except.ok fd)
    (hsend : ∀ t, env.sendTx t = Except.ok ())
    (hbal : ∀ j, env.mintedBalance j = Except.ok (S + (j + 1) * m))
    (hfuel : (target - S + m - 1) / m + 1 ≤ fuel) :
    ∃ txs, mintLoop sc env target fuel S 0 0 [] =
        some ⟨Except.ok (), txs.length, txs⟩ ∧
      txs.length = (target - S + m - 1) / m ∧
      target ≤ S + txs.length * m ∧
      ∀ j, S + j * m ≤ S + (j + 1) * m := by
  obtain ⟨txs, hrun, hlen⟩ :=
    mintLoop_ideal sc env target S m hm hnonce hfee hsend hbal fuel S 0 0 []
      (by ring) hfuel
  refine ⟨txs, by simpa using hrun, hlen, ?_, ?_⟩
  · rw [hlen]
    have := ceil_div_mul_ge (target - S) m hm
    omega
  · intro j
    exact Nat.add_le_add_left (Nat.mul_le_mul_right m (Nat.le_succ j)) S

/-- A swap environment whose mint calls each succeed and raise the signer
balance by exactly 2 per call. -/
def envMint : SwapEnv :=
  { envAllOk with mintedBalance := fun j => Except.ok (0 + (j + 1) * 2) }

/-- Witness for C5: `S = 0`, `target = 5`, `m = 2` gives exactly
`⌈5/2⌉ = 3` mint calls. -/
theorem C5_mint_loop_exact_count_witness :
    ∃ txs, mintLoop swapCfgA envMint 5 4 0 0 0 [] =
        some ⟨Except.ok (), txs.length, txs⟩ ∧
      txs.length = (5 - 0 + 2 - 1) / 2 ∧
      5 ≤ 0 + txs.length * 2 ∧
      ∀ j, 0 + j * 2 ≤ 0 + (j + 1) * 2 :=
  C5_mint_loop_exact_count swapCfgA envMint 5 0 2 4 (by norm_num) (by norm_num)
    (fun t => ⟨5, rfl⟩) (fun t => ⟨⟨7, 1⟩, rfl⟩) (fun t => rfl) (fun j => rfl)
    (by norm_num)

/-- The request built by `executeTransaction` carries the requested kind and
resolves each fee to the maximum of the configured floor and the
network-suggested value. -/
theorem executeTransaction_fields (sc : SwapCfg) (fd : FeeData) (kind : TxKind)
    (g n : ℕ) :
    (executeTransaction sc fd kind g n).kind = kind ∧
    (executeTransaction sc fd kind g n).maxFeePerGas =
      max sc.max_fee fd.maxFeePerGas ∧
    (executeTransaction sc fd kind g n).maxPriorityFeePerGas =
      max sc.priority_fee fd.maxPriorityFeePerGas := by
  unfold executeTransaction
  refine ⟨rfl, ?_, ?_⟩ <;> dsimp only <;> split <;> omega

/-- A successful `submitTx` is exactly the request assembled by
`executeTransaction` from a nonce and fee-data read performed at submission
time. -/
theorem submitTx_ok (sc : SwapCfg) (env : SwapEnv) (kind : TxKind) (g t : ℕ)
    (tx : TxPlan) (h : submitTx sc env kind g t = Except.ok tx) :
    ∃ n fd, env.nonce t = Except.ok n ∧ env.feeData t = Except.ok fd ∧
      tx = executeTransaction sc fd kind g n := by
  unfold submitTx at h
  cases hn : env.nonce t with
  | error e => simp [hn] at h
  | ok n =>
    simp only [hn] at h
    cases hfd : env.feeData t with
    | error e => simp [hfd] at h
    | ok fd =>
      simp only [hfd] at h
      cases hs : env.sendTx t with
      | error e => simp [hs] at h
      | ok u =>
        simp only [hs, Except.ok.injEq] at h
        exact ⟨n, fd, rfl, rfl, h.symm⟩

/-- A successful `submitTx` has the kind of its call site. -/
theorem submitTx_ok_kind (sc : SwapCfg) (env : SwapEnv) (kind : TxKind)
    (g t : ℕ) (tx : TxPlan) (h : submitTx sc env kind g t = Except.ok tx) :
    tx.kind = kind := by
  obtain ⟨n, fd, -, -, rfl⟩ := submitTx_ok sc env kind g t tx h
  rfl

/-- Every transaction appended by the mint loop satisfies any predicate that
holds of all successful mint submissions. -/
theorem mintLoop_txs_pred (sc : SwapCfg) (env : SwapEnv) (target : ℕ)
    (P : TxPlan → Prop)
    (hP : ∀ t tx, submitTx sc env TxKind.mint 10000000 t = Except.ok tx → P tx) :
    ∀ fuel bal t i acc mr, mintLoop sc env target fuel bal t i acc = some mr →
      (∀ tx ∈ acc, P tx) → ∀ tx ∈ mr.txs, P tx := by
  intro fuel
  induction fuel with
  | zero => intro bal t i acc mr h; simp [mintLoop] at h
  | succ fuel ih =>
    intro bal t i acc mr h hacc
    simp only [mintLoop] at h
    by_cases hlt : bal < target
    · rw [if_pos hlt] at h
      cases hsub : submitTx sc env TxKind.mint 10000000 t with
      | error e =>
        simp only [hsub, Option.some.injEq] at h
        subst h
        exact hacc
      | ok tx0 =>
        simp only [hsub] at h
        have hnew : ∀ tx ∈ acc ++ [tx0], P tx := by
          intro tx htx
          rcases List.mem_append.mp htx with h1 | h1
          · exact hacc tx h1
          · rw [List.mem_singleton.mp h1]
            exact hP t tx0 hsub
        cases hmb : env.mintedBalance i with
        | error e =>
          simp only [hmb, Option.some.injEq] at h
          subst h
          exact hnew
        | ok b2 =>
          simp only [hmb] at h
          exact ih _ _ _ _ _ h hnew
    · rw [if_neg hlt] at h
      simp only [Option.some.injEq] at h
      subst h
      exact hacc

/-- A successful `checkAndApproveToken` submits either nothing (allowance
already sufficient) or exactly one approval. -/
theorem checkAndApproveToken_ok (sc : SwapCfg) (env : SwapEnv) (amount t t2 : ℕ)
    (txs2 : List TxPlan)
    (h : checkAndApproveToken sc env amount t = Except.ok (t2, txs2)) :
    txs2 = [] ∨
      ∃ tx, txs2 = [tx] ∧
        submitTx sc env TxKind.approve 100000 t = Except.ok tx := by
  unfold checkAndApproveToken at h
  cases hal : env.allowance with
  | error e => simp [hal] at h
  | ok al =>
    simp only [hal] at h
    by_cases hlt : al < amount
    · rw [if_pos hlt] at h
      cases hsub : submitTx sc env TxKind.approve 100000 t with
      | error e => simp [hsub] at h
      | ok tx =>
        simp only [hsub, Except.ok.injEq, Prod.mk.injEq] at h
        exact Or.inr ⟨tx, h.2.symm, rfl⟩
    · rw [if_neg hlt] at h
      simp only [Except.ok.injEq, Prod.mk.injEq] at h
      exact Or.inl h.2.symm

/-- A successful `unwrapWETH` reads the native balance before and after,
submits exactly one unwrap transaction, and reports profit = after − before. -/
theorem unwrapWETH_ok (sc : SwapCfg) (env : SwapEnv) (t : ℕ)
    (r : ℕ × List TxPlan × SwapOutcome) (h : unwrapWETH sc env t = Except.ok r) :
    ∃ nb na tx, env.nativeBalanceBefore = Except.ok nb ∧
      env.nativeBalanceAfter = Except.ok na ∧
      submitTx sc env TxKind.unwrap 100000 t = Except.ok tx ∧
      r = (t + 1, [tx], ⟨nb, na, (na : ℤ) - (nb : ℤ)⟩) := by
  unfold unwrapWETH at h
  cases hb : env.nativeBalanceBefore with
  | error e => simp [hb] at h
  | ok nb =>
    simp only [hb] at h
    cases hsub : submitTx sc env TxKind.unwrap 100000 t with
    | error e => simp [hsub] at h
    | ok tx =>
      simp only [hsub] at h
      cases ha : env.nativeBalanceAfter with
      | error e => simp [ha] at h
      | ok na =>
        simp only [ha, Except.ok.injEq] at h
        exact ⟨nb, na, tx, rfl, rfl, rfl, h.symm⟩

/-- Every transaction emitted by the protocol body satisfies any predicate
holding of all successful submissions. -/
theorem swapProtocol_txs_pred (pc : PoolCfg) (sc : SwapCfg) (env : SwapEnv)
    (fuel : ℕ) (P : TxPlan → Prop)
    (hP : ∀ kind g t tx, submitTx sc env kind g t = Except.ok tx → P tx)
    (pr : ProtoRun) (h : swapProtocol pc sc env fuel = some pr) :
    ∀ tx ∈ pr.txs, P tx := by
  unfold swapProtocol at h
  cases hb : env.poolWethBalance with
  | error e =>
    simp only [hb, Option.some.injEq] at h
    subst h
    intro tx htx
    simp at htx
  | ok balanceNum =>
    simp only [hb] at h
    by_cases hth : balanceNum ≤ pc.threshold
    · rw [if_pos hth] at h
      simp only [Option.some.injEq] at h
      subst h
      intro tx htx
      simp at htx
    · rw [if_neg hth] at h
      cases htr : env.poolTokenReserve with
      | error e =>
        simp only [htr, Option.some.injEq] at h
        subst h
        intro tx htx
        simp at htx
      | ok tokenReserve =>
        simp only [htr] at h
        cases hwr : env.poolWethReserve with
        | error e =>
          simp only [hwr, Option.some.injEq] at h
          subst h
          intro tx htx
          simp at htx
        | ok wethReserve =>
          simp only [hwr] at h
          by_cases hwz : wethReserve = 0
          · rw [if_pos hwz] at h
            simp only [Option.some.injEq] at h
            subst h
            intro tx htx
            simp at htx
          · rw [if_neg hwz] at h
            cases hs0 : env.signerTokenBalance with
            | error e =>
              simp only [hs0, Option.some.injEq] at h
              subst h
              intro tx htx
              simp at htx
            | ok s0 =>
              simp only [hs0] at h
              generalize hbuf : requiredWithBuffer
                (calculateRequiredTokenAmount tokenReserve wethReserve
                  (weiOfEther
                    (withdrawalAmount balanceNum pc.withdrawal_percentage))) =
                buffered at h
              cases hml : mintLoop sc env buffered fuel s0 0 0 [] with
              | none => simp [hml] at h
              | some mr =>
                rcases mr with ⟨mres, mt, mtxs⟩
                have hmtxs : ∀ tx ∈ mtxs, P tx := by
                  have := mintLoop_txs_pred sc env buffered P
                    (fun t tx => hP TxKind.mint 10000000 t tx) fuel s0 0 0 []
                    ⟨mres, mt, mtxs⟩ hml (by intro tx htx; simp at htx)
                  exact this
                cases mres with
                | error e =>
                  simp only [hml, Option.some.injEq] at h
                  subst h
                  exact hmtxs
                | ok u =>
                  simp only [hml] at h
                  cases hap : checkAndApproveToken sc env buffered mt with
                  | error e =>
                    simp only [hap, Option.some.injEq] at h
                    subst h
                    exact hmtxs
                  | ok p2 =>
                    rcases p2 with ⟨t2, txs2⟩
                    have htxs2 : ∀ tx ∈ txs2, P tx := by
                      rcases checkAndApproveToken_ok sc env buffered mt t2 txs2
                          hap with
                        h0 | ⟨tx0, rfl, hsub⟩
                      · rw [h0]
                        intro tx htx
                        simp at htx
                      · intro tx htx
                        rw [List.mem_singleton.mp htx]
                        exact hP _ _ _ _ hsub
                    simp only [hap] at h
                    cases hpf : env.poolFee with
                    | error e =>
                      simp only [hpf, Option.some.injEq] at h
                      subst h
                      intro tx htx
                      simp only [List.mem_append] at htx
                      rcases htx with h1 | h1
                      · exact hmtxs tx h1
                      · exact htxs2 tx h1
                    | ok f =>
                      simp only [hpf] at h
                      cases hsw : submitTx sc env TxKind.swap sc.gas_limit t2 with
                      | error e =>
                        simp only [hsw, Option.some.injEq] at h
                        subst h
                        intro tx htx
                        simp only [List.mem_append] at htx
                        rcases htx with h1 | h1
                        · exact hmtxs tx h1
                        · exact htxs2 tx h1
                      | ok swapTx =>
                        have hswP : P swapTx := hP _ _ _ _ hsw
                        simp only [hsw] at h
                        cases hw : env.signerWethBalance with
                        | error e =>
                          simp only [hw, Option.some.injEq] at h
                          subst h
                          intro tx htx
                          simp only [List.mem_append, List.mem_singleton] at htx
                          rcases htx with (h1 | h1) | h1
                          · exact hmtxs tx h1
                          · exact htxs2 tx h1
                          · rw [h1]; exact hswP
                        | ok w =>
                          simp only [hw] at h
                          by_cases hwpos : w > 0
                          · rw [if_pos hwpos] at h
                            cases hu : unwrapWETH sc env (t2 + 1) with
                            | error e =>
                              simp only [hu, Option.some.injEq] at h
                              subst h
                              intro tx htx
                              simp only [List.mem_append, List.mem_singleton]
                                at htx
                              rcases htx with (h1 | h1) | h1
                              · exact hmtxs tx h1
                              · exact htxs2 tx h1
                              · rw [h1]; exact hswP
                            | ok r =>
                              obtain ⟨nb, na, utx, hnb, hna, husub, hr⟩ :=
                                unwrapWETH_ok sc env (t2 + 1) r hu
                              subst hr
                              simp only [hu, Option.some.injEq] at h
                              subst h
                              intro tx htx
                              simp only [List.mem_append, List.mem_singleton]
                                at htx
                              rcases htx with ((h1 | h1) | h1) | h1
                              · exact hmtxs tx h1
                              · exact htxs2 tx h1
                              · rw [h1]; exact hswP
                              · rw [h1]; exact hP _ _ _ _ husub
                          · rw [if_neg hwpos] at h
                            simp only [Option.some.injEq] at h
                            subst h
                            intro tx htx
                            simp only [List.mem_append, List.mem_singleton]
                              at htx
                            rcases htx with (h1 | h1) | h1
                            · exact hmtxs tx h1
                            · exact htxs2 tx h1
                            · rw [h1]; exact hswP

/-- A protocol run that ends successfully and submitted the swap transaction
read the signer's post-swap WETH balance `w`; when `w > 0` it performed the
unwrap and emitted exactly one report with profit = after − before, and when
`w = 0` it skipped the unwrap and emitted no report at all. -/
theorem swapProtocol_ok_swap_cases (pc : PoolCfg) (sc : SwapCfg) (env : SwapEnv)
    (fuel : ℕ) (pr : ProtoRun)
    (h : swapProtocol pc sc env fuel = some pr)
    (hok : pr.result = Except.ok ())
    (hswap : TxKind.swap ∈ pr.txs.map TxPlan.kind) :
    ∃ w, env.signerWethBalance = Except.ok w ∧
      ((0 < w ∧ ∃ nb na, env.nativeBalanceBefore = Except.ok nb ∧
          env.nativeBalanceAfter = Except.ok na ∧
          pr.reports = [⟨nb, na, (na : ℤ) - (nb : ℤ)⟩] ∧
          TxKind.unwrap ∈ pr.txs.map TxPlan.kind) ∨
        (w = 0 ∧ pr.reports = [] ∧
          TxKind.unwrap ∉ pr.txs.map TxPlan.kind)) := by
  unfold swapProtocol at h
  cases hb : env.poolWethBalance with
  | error e =>
    simp only [hb, Option.some.injEq] at h
    subst h
    simp at hok
  | ok balanceNum =>
    simp only [hb] at h
    by_cases hth : balanceNum ≤ pc.threshold
    · rw [if_pos hth] at h
      simp only [Option.some.injEq] at h
      subst h
      simp at hswap
    · rw [if_neg hth] at h
      cases htr : env.poolTokenReserve with
      | error e =>
        simp only [htr, Option.some.injEq] at h
        subst h
        simp at hok
      | ok tokenReserve =>
        simp only [htr] at h
        cases hwr : env.poolWethReserve with
        | error e =>
          simp only [hwr, Option.some.injEq] at h
          subst h
          simp at hok
        | ok wethReserve =>
          simp only [hwr] at h
          by_cases hwz : wethReserve = 0
          · rw [if_pos hwz] at h
            simp only [Option.some.injEq] at h
            subst h
            simp at hok
          · rw [if_neg hwz] at h
            cases hs0 : env.signerTokenBalance with
            | error e =>
              simp only [hs0, Option.some.injEq] at h
              subst h
              simp at hok
            | ok s0 =>
              simp only [hs0] at h
              generalize hbuf : requiredWithBuffer
                (calculateRequiredTokenAmount tokenReserve wethReserve
                  (weiOfEther
                    (withdrawalAmount balanceNum pc.withdrawal_percentage))) =
                buffered at h
              cases hml : mintLoop sc env buffered fuel s0 0 0 [] with
              | none => simp [hml] at h
              | some mr =>
                rcases mr with ⟨mres, mt, mtxs⟩
                have hmk : ∀ tx ∈ mtxs, tx.kind = TxKind.mint := by
                  have := mintLoop_txs_pred sc env buffered
                    (fun tx => tx.kind = TxKind.mint)
                    (fun t tx hsub => submitTx_ok_kind sc env _ _ t tx hsub)
                    fuel s0 0 0 [] ⟨mres, mt, mtxs⟩ hml
                    (by intro tx htx; simp at htx)
                  exact this
                cases mres with
                | error e =>
                  simp only [hml, Option.some.injEq] at h
                  subst h
                  simp at hok
                | ok u =>
                  simp only [hml] at h
                  cases hap : checkAndApproveToken sc env buffered mt with
                  | error e =>
                    simp only [hap, Option.some.injEq] at h
                    subst h
                    simp at hok
                  | ok p2 =>
                    rcases p2 with ⟨t2, txs2⟩
                    have htxs2k : ∀ tx ∈ txs2, tx.kind = TxKind.approve := by
                      rcases checkAndApproveToken_ok sc env buffered mt t2 txs2
                          hap with
                        h0 | ⟨tx0, rfl, hsub⟩
                      · rw [h0]
                        intro tx htx
                        simp at htx
                      · intro tx htx
                        rw [List.mem_singleton.mp htx]
                        exact submitTx_ok_kind sc env _ _ mt tx0 hsub
                    simp only [hap] at h
                    cases hpf : env.poolFee with
                    | error e =>
                      simp only [hpf, Option.some.injEq] at h
                      subst h
                      simp at hok
                    | ok f =>
                      simp only [hpf] at h
                      cases hsw : submitTx sc env TxKind.swap sc.gas_limit t2 with
                      | error e =>
                        simp only [hsw, Option.some.injEq] at h
                        subst h
                        simp at hok
                      | ok swapTx =>
                        have hswk : swapTx.kind = TxKind.swap :=
                          submitTx_ok_kind sc env _ _ t2 swapTx hsw
                        simp only [hsw] at h
                        cases hw : env.signerWethBalance with
                        | error e =>
                          simp only [hw, Option.some.injEq] at h
                          subst h
                          simp at hok
                        | ok w =>
                          simp only [hw] at h
                          by_cases hwpos : w > 0
                          · rw [if_pos hwpos] at h
                            cases hu : unwrapWETH sc env (t2 + 1) with
                            | error e =>
                              simp only [hu, Option.some.injEq] at h
                              subst h
                              simp at hok
                            | ok r =>
                              obtain ⟨nb, na, utx, hnb, hna, husub, hr⟩ :=
                                unwrapWETH_ok sc env (t2 + 1) r hu
                              subst hr
                              simp only [hu, Option.some.injEq] at h
                              subst h
                              refine ⟨w, rfl, Or.inl ⟨hwpos, nb, na, hnb, hna,
                                rfl, ?_⟩⟩
                              refine List.mem_map.mpr
                                ⟨utx, ?_,
                                  submitTx_ok_kind sc env _ _ (t2 + 1) utx husub⟩
                              simp
                          · rw [if_neg hwpos] at h
                            simp only [Option.some.injEq] at h
                            subst h
                            refine ⟨w, rfl, Or.inr ⟨by omega, rfl, ?_⟩⟩
                            intro hmem
                            obtain ⟨tx, htx, hkind⟩ := List.mem_map.mp hmem
                            simp only [List.mem_append, List.mem_singleton]
                              at htx
                            rcases htx with (h1 | h1) | h1
                            · rw [hmk tx h1] at hkind
                              exact absurd hkind (by simp)
                            · rw [htxs2k tx h1] at hkind
                              exact absurd hkind (by simp)
                            · rw [h1] at hkind
                              rw [hswk] at hkind
                              exact absurd hkind (by simp)

/-- For an invocation that acquires the flag, `executeSwap` returns exactly
the protocol body's outcome with the flag cleared. -/
theorem executeSwap_some (pc : PoolCfg) (sc : SwapCfg) (env : SwapEnv)
    (fuel : ℕ) (st : ExecState) (out : SwapRun)
    (hst : st.isProcessing = false)
    (h : executeSwap pc sc env fuel st = some out) :
    ∃ pr, swapProtocol pc sc env fuel = some pr ∧
      out = ⟨pr.result, ⟨false⟩, pr.txs, pr.reports⟩ := by
  unfold executeSwap at h
  simp only [hst, Bool.false_eq_true, if_false] at h
  cases hsp : swapProtocol pc sc env fuel with
  | none => simp [hsp] at h
  | some pr =>
    rcases pr with ⟨r, txs, reps⟩
    cases r with
    | ok u =>
      cases u
      simp only [hsp, Option.some.injEq] at h
      exact ⟨⟨Except.ok (), txs, reps⟩, rfl, h.symm⟩
    | error e =>
      simp only [hsp, Option.some.injEq] at h
      exact ⟨⟨Except.error e, txs, reps⟩, rfl, h.symm⟩

/-- The swap request `executeSwap` submits under `envAllOk`: nonce 5, the gas
limit of `swapCfgA`, and fees `max 10 7 = 10`, `max 2 1 = 2`. -/
def swapTxA : TxPlan := ⟨TxKind.swap, 5, 500000, 10, 2⟩

/-- The unwrap request submitted under `envUnwrap`. -/
def unwrapTxA : TxPlan := ⟨TxKind.unwrap, 5, 100000, 10, 2⟩

/-- Evaluation of `executeSwap` under `envAllOk`: the swap completes with one
swap transaction and, the post-swap WETH balance being 0, no unwrap and no
report. -/
theorem executeSwap_envAllOk_eval :
    executeSwap poolCfgA swapCfgA envAllOk 1 ⟨false⟩ =
      some ⟨Except.ok (), ⟨false⟩, [swapTxA], []⟩ := by
  unfold executeSwap swapProtocol
  norm_num [envAllOk, poolCfgA, swapCfgA, mintLoop, checkAndApproveToken,
    submitTx, executeTransaction, calculateRequiredTokenAmount,
    requiredWithBuffer, swapTxA]

/-- Evaluation of `executeSwap` under `envUnwrap`: the swap completes, the
post-swap WETH balance 15 is positive, so exactly one unwrap transaction is
submitted and exactly one report `⟨100, 120, 20⟩` is emitted. -/
theorem executeSwap_envUnwrap_eval :
    executeSwap poolCfgA swapCfgA envUnwrap 1 ⟨false⟩ =
      some ⟨Except.ok (), ⟨false⟩, [swapTxA, unwrapTxA], [⟨100, 120, 20⟩]⟩ := by
  unfold executeSwap swapProtocol unwrapWETH
  norm_num [envUnwrap, envAllOk, poolCfgA, swapCfgA, mintLoop,
    checkAndApproveToken, submitTx, executeTransaction,
    calculateRequiredTokenAmount, requiredWithBuffer, swapTxA, unwrapTxA]

/-- C6: every transaction the executor submits carries
`maxFeePerGas = max(configured floor, network fee fetched at submission)` and
likewise for the priority fee — the floor is a lower bound, never a cap. -/
theorem C6_fee_floor_never_caps (pc : PoolCfg) (sc : SwapCfg) (env : SwapEnv)
    (fuel : ℕ) (st : ExecState) (out : SwapRun)
    (h : executeSwap pc sc env fuel st = some out) :
    ∀ tx ∈ out.txs, ∃ t fd, env.feeData t = Except.ok fd ∧
      tx.maxFeePerGas = max sc.max_fee fd.maxFeePerGas ∧
      tx.maxPriorityFeePerGas = max sc.priority_fee fd.maxPriorityFeePerGas := by
  by_cases hst : st.isProcessing = true
  · unfold executeSwap at h
    rw [if_pos hst] at h
    simp only [Option.some.injEq] at h
    subst h
    intro tx htx
    simp at htx
  · have hst' : st.isProcessing = false := by
      revert hst
      cases st.isProcessing <;> simp
    obtain ⟨pr, hsp, rfl⟩ := executeSwap_some pc sc env fuel st out hst' h
    intro tx htx
    refine swapProtocol_txs_pred pc sc env fuel
      (fun tx => ∃ t fd, env.feeData t = Except.ok fd ∧
        tx.maxFeePerGas = max sc.max_fee fd.maxFeePerGas ∧
        tx.maxPriorityFeePerGas = max sc.priority_fee fd.maxPriorityFeePerGas)
      ?_ pr hsp tx htx
    intro kind g t tx0 hsub
    obtain ⟨n, fd, hn, hfd, rfl⟩ := submitTx_ok sc env kind g t tx0 hsub
    exact ⟨t, fd, hfd, (executeTransaction_fields sc fd kind g n).2.1,
      (executeTransaction_fields sc fd kind g n).2.2⟩

/-- Witness for C6 under `envAllOk` (one swap transaction, fees
`max 10 7` and `max 2 1`). -/
theorem C6_fee_floor_never_caps_witness :
    ∃ t fd, envAllOk.feeData t = Except.ok fd ∧
      swapTxA.maxFeePerGas = max swapCfgA.max_fee fd.maxFeePerGas ∧
      swapTxA.maxPriorityFeePerGas =
        max swapCfgA.priority_fee fd.maxPriorityFeePerGas :=
  C6_fee_floor_never_caps poolCfgA swapCfgA envAllOk 1 ⟨false⟩
    ⟨Except.ok (), ⟨false⟩, [swapTxA], []⟩ executeSwap_envAllOk_eval swapTxA
    (by simp)

/-- C7: an invocation of `executeSwap` that acquires the in-flight flag
terminates with the flag cleared on every exit path, and returns exactly the
protocol body's outcome — an exception aborts the remaining steps and
propagates unchanged to the caller together with the transactions submitted
before the abort. -/
theorem C7_flag_cleared_error_propagates (pc : PoolCfg) (sc : SwapCfg)
    (env : SwapEnv) (fuel : ℕ) (st : ExecState) (out : SwapRun)
    (hst : st.isProcessing = false)
    (h : executeSwap pc sc env fuel st = some out) :
    out.state.isProcessing = false ∧
    ∀ pr, swapProtocol pc sc env fuel = some pr →
      out.result = pr.result ∧ out.txs = pr.txs ∧ out.reports = pr.reports := by
  obtain ⟨pr, hsp, rfl⟩ := executeSwap_some pc sc env fuel st out hst h
  refine ⟨rfl, ?_⟩
  intro pr' hpr'
  rw [hsp] at hpr'
  simp only [Option.some.injEq] at hpr'
  subst hpr'
  exact ⟨rfl, rfl, rfl⟩

/-- Witness for C7 under `envAllOk`. -/
theorem C7_flag_cleared_error_propagates_witness :
    (⟨Except.ok (), ⟨false⟩, [swapTxA], []⟩ : SwapRun).state.isProcessing =
      false ∧
    ∀ pr, swapProtocol poolCfgA swapCfgA envAllOk 1 = some pr →
      (⟨Except.ok (), ⟨false⟩, [swapTxA], []⟩ : SwapRun).result = pr.result ∧
      (⟨Except.ok (), ⟨false⟩, [swapTxA], []⟩ : SwapRun).txs = pr.txs ∧
      (⟨Except.ok (), ⟨false⟩, [swapTxA], []⟩ : SwapRun).reports = pr.reports :=
  C7_flag_cleared_error_propagates poolCfgA swapCfgA envAllOk 1 ⟨false⟩
    ⟨Except.ok (), ⟨false⟩, [swapTxA], []⟩ rfl executeSwap_envAllOk_eval

/-- C9 counterexample: under `envAllOk` the swap completes successfully
(`Except.ok` with the swap transaction submitted) yet the run emits zero
outcome reports, because the post-swap WETH balance is 0 and the unwrap —
whose success log is the only report — is skipped. -/
theorem C9_completed_swap_without_report_counterexample :
    executeSwap poolCfgA swapCfgA envAllOk 1 ⟨false⟩ =
      some ⟨Except.ok (), ⟨false⟩, [swapTxA], []⟩ ∧
    swapTxA.kind = TxKind.swap :=
  ⟨executeSwap_envAllOk_eval, rfl⟩

/-- C9 amended: a successful `executeSwap` run that submitted the swap
transaction emits exactly one outcome report — native balance before/after
the unwrap and profit = after − before — precisely when the post-swap
wrapped-native balance is positive (and then the unwrap call is submitted);
when that balance is zero, the unwrap is skipped and no report is emitted. -/
theorem C9_one_report_iff_unwrap_amended (pc : PoolCfg) (sc : SwapCfg)
    (env : SwapEnv) (fuel : ℕ) (st : ExecState) (out : SwapRun)
    (hst : st.isProcessing = false)
    (h : executeSwap pc sc env fuel st = some out)
    (hok : out.result = Except.ok ())
    (hswap : TxKind.swap ∈ out.txs.map TxPlan.kind) :
    ∃ w, env.signerWethBalance = Except.ok w ∧
      ((0 < w ∧ ∃ nb na, env.nativeBalanceBefore = Except.ok nb ∧
          env.nativeBalanceAfter = Except.ok na ∧
          out.reports = [⟨nb, na, (na : ℤ) - (nb : ℤ)⟩] ∧
          TxKind.unwrap ∈ out.txs.map TxPlan.kind) ∨
        (w = 0 ∧ out.reports = [] ∧
          TxKind.unwrap ∉ out.txs.map TxPlan.kind)) := by
  obtain ⟨pr, hsp, rfl⟩ := executeSwap_some pc sc env fuel st out hst h
  exact swapProtocol_ok_swap_cases pc sc env fuel pr hsp hok hswap

/-- Witness for the amended C9 under `envUnwrap` (positive post-swap WETH
balance 15 yields exactly one report `⟨100, 120, 20⟩` and an unwrap call). -/
theorem C9_one_report_iff_unwrap_amended_witness :
    ∃ w, envUnwrap.signerWethBalance = Except.ok w ∧
      ((0 < w ∧ ∃ nb na, envUnwrap.nativeBalanceBefore = Except.ok nb ∧
          envUnwrap.nativeBalanceAfter = Except.ok na ∧
          (⟨Except.ok (), ⟨false⟩, [swapTxA, unwrapTxA],
            [⟨100, 120, 20⟩]⟩ : SwapRun).reports =
            [⟨nb, na, (na : ℤ) - (nb : ℤ)⟩] ∧
          TxKind.unwrap ∈
            (⟨Except.ok (), ⟨false⟩, [swapTxA, unwrapTxA],
              [⟨100, 120, 20⟩]⟩ : SwapRun).txs.map TxPlan.kind) ∨
        (w = 0 ∧
          (⟨Except.ok (), ⟨false⟩, [swapTxA, unwrapTxA],
            [⟨100, 120, 20⟩]⟩ : SwapRun).reports = [] ∧
          TxKind.unwrap ∉
            (⟨Except.ok (), ⟨false⟩, [swapTxA, unwrapTxA],
              [⟨100, 120, 20⟩]⟩ : SwapRun).txs.map TxPlan.kind)) :=
  C9_one_report_iff_unwrap_amended poolCfgA swapCfgA envUnwrap 1 ⟨false⟩
    ⟨Except.ok (), ⟨false⟩, [swapTxA, unwrapTxA], [⟨100, 120, 20⟩]⟩ rfl
    executeSwap_envUnwrap_eval rfl (by simp [swapTxA, unwrapTxA])

end UniswapMonitorBot
